import Mathlib

/-!
Verification of the ADB storage/query engine (`src/adb.py`).

The engine state is embedded value-level: Python dicts become association
lists that preserve insertion order (Python 3.7+ dict semantics), records
are field/value maps, and each facade operation of the `ADB` class becomes
a pure function on an explicit `DB` state.  File persistence is modelled by
a `disk` field recording the sequence of durable writes; the wall clock
used by the save throttle and the timestamps is an explicit `now : Nat`
argument.  I/O failure branches (which only log and return `False`) are not
modelled; `save_database` always succeeds, as in a run without I/O errors.
-/

set_option maxRecDepth 4000
set_option synthInstance.maxSize 1000

namespace ADB

/-- JSON-ish scalar values stored in records.  Nested lists/objects are not
needed by any property considered here and are omitted. -/
inductive Value where
  | null : Value
  | bool : Bool → Value
  | int : Int → Value
  | str : String → Value
deriving DecidableEq

/-- A record: Python dict from field name to value, in insertion order. -/
abbrev Record := List (String × Value)

/-- A table: ordered list of records (`self.data[table_name]`). -/
abbrev Table := List Record

/-- Generic association-list lookup with an explicit key-equality test,
mirroring Python dict lookup (first, and only, matching key wins). -/
def alookupBy (eqb : α → α → Bool) : List (α × β) → α → Option β
  | [], _ => none
  | (k', v) :: rest, k => if eqb k' k then some v else alookupBy eqb rest k

/-- Python dict assignment `d[k] = v`: replace the value of an existing
equal key in place (keeping the original key object and its position), or
append a fresh binding at the end. -/
def asetBy (eqb : α → α → Bool) : List (α × β) → α → β → List (α × β)
  | [], k, v => [(k, v)]
  | (k', v') :: rest, k, v =>
    if eqb k' k then (k', v) :: rest else (k', v') :: asetBy eqb rest k v

/-- Key equality for string-keyed dicts. -/
def strEq (a b : String) : Bool := a == b

/-- `record[k]` / `record.get(k)`. -/
def rget (r : Record) (k : String) : Option Value := alookupBy strEq r k

/-- `k in record`. -/
def rhas (r : Record) (k : String) : Bool := (rget r k).isSome

/-- `record[k] = v`. -/
def rset (r : Record) (k : String) (v : Value) : Record := asetBy strEq r k v

/-- `record.update(new_values)`: assign each pair of `new_values` in order. -/
def rupdate (r : Record) (new_values : Record) : Record :=
  new_values.foldl (fun acc p => rset acc p.1 p.2) r

/-- Numeric view of a value under Python semantics, where `bool` is a
subtype of `int` (`True == 1`, `False == 0`). -/
def numOf : Value → Option Int
  | .int n => some n
  | .bool b => some (if b then 1 else 0)
  | _ => none

/-- Python `==` on scalar values: numbers (including booleans) compare
numerically, strings and `None` compare structurally, and values of
unrelated types are unequal. -/
def pyEq (a b : Value) : Bool :=
  match numOf a, numOf b with
  | some x, some y => decide (x = y)
  | _, _ =>
    match a, b with
    | .str s, .str t => decide (s = t)
    | .null, .null => true
    | _, _ => false

/-- Lexicographic `<` on character lists (Python string comparison). -/
def strLtL : List Char → List Char → Bool
  | [], [] => false
  | [], _ :: _ => true
  | _ :: _, [] => false
  | a :: as, b :: bs => if a = b then strLtL as bs else decide (a < b)

/-- Python `<` on scalar values.  Numbers (and booleans) compare
numerically and strings lexicographically; comparing values of unrelated
types raises `TypeError` in Python — such comparisons are modelled as
`false` and are never exercised by the properties below. -/
def pyLt (a b : Value) : Bool :=
  match numOf a, numOf b with
  | some x, some y => decide (x < y)
  | _, _ =>
    match a, b with
    | .str s, .str t => strLtL s.data t.data
    | _, _ => false

/-- Python `<=`. -/
def pyLe (a b : Value) : Bool := pyLt a b || pyEq a b

/-- Python `>=`. -/
def pyGe (a b : Value) : Bool := pyLe b a

/-- Python `>`. -/
def pyGt (a b : Value) : Bool := pyLt b a

/-- Python `str(value)` for the scalar values modelled here. -/
def pyStr : Value → String
  | .null => "None"
  | .bool true => "True"
  | .bool false => "False"
  | .int n => toString n
  | .str s => s

/-- Does `hay` start with `needle`? -/
def strStarts : List Char → List Char → Bool
  | [], _ => true
  | _ :: _, [] => false
  | a :: as, b :: bs => a == b && strStarts as bs

/-- Python substring test `needle in hay` on character lists. -/
def strHasL (needle : List Char) : List Char → Bool
  | [] => strStarts needle []
  | c :: cs => strStarts needle (c :: cs) || strHasL needle cs

/-- Python substring test `needle in hay` on strings. -/
def strHas (needle hay : String) : Bool := strHasL needle.data hay.data

/-- The value side of one condition field: either a literal (equality test)
or a one-level operator mapping such as `{"$gt": 18, "$lt": 60}`. -/
inductive CondVal where
  | lit : Value → CondVal
  | ops : List (String × Value) → CondVal
deriving DecidableEq

/-- A query condition: Python dict from field name to literal or operator
mapping. -/
abbrev Condition := List (String × CondVal)

/-- One guarded check of `_match_condition`: the operator bound `g` rejects
the record value `w` only when the operator is present in the mapping, the
field is present in the record, and `bad w g` holds. -/
def opCheck (g : Option Value) (w : Option Value) (bad : Value → Value → Bool) : Bool :=
  match g, w with
  | some g', some w' => bad w' g'
  | _, _ => false

/-- The `$like` check: present needle, present field, needle not a
substring of the stringified field (case-insensitively).  The needle is
coerced with `pyStr` (Python would raise `AttributeError` for a non-string
needle; no property below exercises that corner). -/
def likeFail (pat : Option Value) (w : Option Value) : Bool :=
  match pat, w with
  | some p, some w' => !(strHas (pyStr p).toLower (pyStr w').toLower)
  | _, _ => false

/-- The operator checks of `_match_condition` (src/adb.py:368-380) for one
field whose condition value is an operator mapping: each recognised
operator rejects the record only when the field is present in the record
and the comparison fails. -/
def opsFail (record : Record) (key : String) (value : List (String × Value)) : Bool :=
  opCheck (alookupBy strEq value "$gt") (rget record key) pyLe ||
  opCheck (alookupBy strEq value "$lt") (rget record key) pyGe ||
  opCheck (alookupBy strEq value "$gte") (rget record key) pyLt ||
  opCheck (alookupBy strEq value "$lte") (rget record key) pyGt ||
  likeFail (alookupBy strEq value "$like") (rget record key)

/-- `_match_condition(record, condition)` (src/adb.py:365-384): all fields
of the condition are conjoined; a literal value is an equality test that
fails when the field is absent, an operator mapping applies `opsFail`. -/
def matchCondition (record : Record) : Condition → Bool
  | [] => true
  | (key, CondVal.ops m) :: rest =>
    if opsFail record key m then false else matchCondition record rest
  | (key, CondVal.lit v) :: rest =>
    match rget record key with
    | none => false
    | some w => if pyEq w v then matchCondition record rest else false

/-- Python types usable in a schema's `type` constraint. -/
inductive PyType where
  | str : PyType
  | int : PyType
  | bool : PyType
deriving DecidableEq

/-- Python `isinstance(value, t)`; note `isinstance(True, int)` is `True`. -/
def isinstanceOf (v : Value) : PyType → Bool
  | .str => match v with | .str _ => true | _ => false
  | .int => match v with | .int _ => true | .bool _ => true | _ => false
  | .bool => match v with | .bool _ => true | _ => false

/-- Per-field schema constraints `{type, required, max_length}`. -/
structure FieldSchema where
  type : Option PyType := none
  required : Bool := false
  max_length : Option Nat := none
deriving DecidableEq

/-- A table schema: dict from field name to constraints. -/
abbrev Schema := List (String × FieldSchema)

/-- Errors raised by the engine, by kind and payload.  The first three
constructors are the `ValidationError`s of `_validate_record`;
`conditionRequired` is the `ValidationError` raised by `update`/`delete`
without a condition; `userError` stands for an arbitrary exception raised
inside a transaction body. -/
inductive AdbErr where
  | requiredFieldMissing : String → AdbErr
  | fieldTypeError : String → AdbErr
  | fieldTooLong : String → AdbErr
  | tableNotFound : String → AdbErr
  | conditionRequired : AdbErr
  | recordLimitReached : String → AdbErr
  | transactionActive : AdbErr
  | userError : AdbErr
deriving DecidableEq

/-- The checks of `_validate_record` for one schema field
(src/adb.py:259-272): required-presence, then (when present) type, then
`max_length` for string values — where a `max_length` of `0` is falsy in
Python and disables the check. -/
def checkField (record : Record) (field : String) (cons : FieldSchema) : Except AdbErr Unit :=
  if cons.required && !(rhas record field) then
    Except.error (.requiredFieldMissing field)
  else
    match rget record field with
    | none => Except.ok ()
    | some value =>
      match cons.type with
      | some t =>
        if !(isinstanceOf value t) then Except.error (.fieldTypeError field)
        else checkLen field cons.max_length value
      | none => checkLen field cons.max_length value
where
  checkLen (field : String) (max_length : Option Nat) (value : Value) : Except AdbErr Unit :=
    match max_length, value with
    | some m, .str s => if m ≠ 0 && s.length > m then Except.error (.fieldTooLong field) else Except.ok ()
    | _, _ => Except.ok ()

/-- Run `checkField` over the schema fields in order, stopping at the
first error (the first `raise` wins). -/
def validateFields (record : Record) : Schema → Except AdbErr Unit
  | [] => Except.ok ()
  | (field, cons) :: rest =>
    match checkField record field cons with
    | Except.error e => Except.error e
    | Except.ok _ => validateFields record rest

/-- `_validate_record` (src/adb.py:253-274): tables without a registered
schema always validate. -/
def validateRecord (schemas : List (String × Schema)) (table_name : String) (record : Record) :
    Except AdbErr Unit :=
  match alookupBy strEq schemas table_name with
  | none => Except.ok ()
  | some schema => validateFields record schema

/-- One column's index: Python dict from observed value to the list of
0-based record positions holding it.  Keys use Python `==` (`pyEq`). -/
abbrev ColIndex := List (Value × List Nat)

/-- All indexes of one table: dict from column name to its index. -/
abbrev TableIndexes := List (String × ColIndex)

/-- The in-memory state of an `ADB` instance, plus a `disk` field recording
every durable write performed by `save_database` (newest first; each entry
is the table data written — the file also carries schemas and indexes,
which the properties below never inspect on disk). -/
structure DB where
  data : List (String × Table)
  indexes : List (String × TableIndexes)
  schemas : List (String × Schema)
  transaction_active : Bool := false
  transaction_backup : Option (List (String × Table)) := none
  last_save_time : Nat := 0
  disk : List (List (String × Table)) := []
deriving DecidableEq

/-- `_save_interval` (seconds). -/
def save_interval : Nat := 1

/-- `max_records` per table (default configuration). -/
def max_records : Nat := 100000

/-- `save_database` (src/adb.py:185-214): skip when less than
`save_interval` has elapsed since the last save AND no transaction is
active; otherwise write the whole state to the file (modelled by consing
onto `disk`).  The `IOError` branch is not modelled. -/
def save_database (now : Nat) (db : DB) : Bool × DB :=
  if now - db.last_save_time < save_interval && !db.transaction_active then
    (true, db)
  else
    (true, { db with disk := db.data :: db.disk, last_save_time := now })

/-- The timestamp string `datetime.now().isoformat()`, modelled from the
clock value. -/
def tsOf (now : Nat) : Value := Value.str (toString now)

/-- The record actually appended by `insert` (src/adb.py:296-301): a copy
of the caller's record with `_created_at` and then `_id` assigned. -/
def insertedRecord (record : Record) (table_len : Nat) (now : Nat) : Record :=
  rset (rset record "_created_at" (tsOf now)) "_id" (Value.int (table_len + 1))

/-- The dict-level effect of src/adb.py:296-306 on the two record objects
involved: `record_copy = record.copy()` allocates a fresh dict, and both
system-field assignments name `record_copy`, so only the fresh dict is
mutated.  The first component is the caller's dict after the call, the
second the dict appended to the table. -/
def insertRecordEffect (record : Record) (table_len : Nat) (now : Nat) : Record × Record :=
  (record, insertedRecord record table_len now)

/-- `index[value].append(position)`, creating `index[value] = []` first
when the value is not yet a key (src/adb.py:314-317). -/
def idxAppend (idx : ColIndex) (value : Value) (pos : Nat) : ColIndex :=
  asetBy pyEq idx value ((alookupBy pyEq idx value).getD [] ++ [pos])

/-- `_update_indexes_for_insert` (src/adb.py:309-317): for every existing
index of the table whose column occurs in the record, append the new
record's position under its value. -/
def updateIndexesForInsert (db : DB) (table_name : String) (record : Record)
    (record_index : Nat) : DB :=
  match alookupBy strEq db.indexes table_name with
  | none => db
  | some tidx =>
    let tidx' := tidx.map fun ci =>
      match rget record ci.1 with
      | some value => (ci.1, idxAppend ci.2 value record_index)
      | none => ci
    { db with indexes := asetBy strEq db.indexes table_name tidx' }

/-- `insert` (src/adb.py:276-307): existence check, record-limit check,
validation of a copy of the caller's record, timestamp and `_id`
assignment on the copy, index maintenance, append, save. -/
def insert (db : DB) (table_name : String) (record : Record) (now : Nat) :
    Except AdbErr Bool × DB :=
  match alookupBy strEq db.data table_name with
  | none => (Except.error (.tableNotFound table_name), db)
  | some records =>
    if records.length ≥ max_records then (Except.error (.recordLimitReached table_name), db)
    else
      match validateRecord db.schemas table_name record with
      | Except.error e => (Except.error e, db)
      | Except.ok _ =>
        let record_copy := (insertRecordEffect record records.length now).2
        let db1 := updateIndexesForInsert db table_name record_copy records.length
        let db2 := { db1 with data := asetBy strEq db1.data table_name (records ++ [record_copy]) }
        let db3 := save_database now db2
        (Except.ok db3.1, db3.2)

/-- Python list slicing `records[offset : offset + limit if limit else None]`
as used by `select` (note `limit = 0` is falsy and means "no limit"). -/
def pySlice (xs : List Record) (offset : Nat) (limit : Option Nat) : List Record :=
  match limit with
  | none => xs.drop offset
  | some l => if l = 0 then xs.drop offset else (xs.drop offset).take l

/-- The full-scan branch of `select` (src/adb.py:357-363). -/
def selectScan (records : Table) (condition : Condition) : List Record :=
  records.filter fun r => matchCondition r condition

/-- The index-probe branch of `select` (src/adb.py:348-355): applicable
when the condition has exactly one field, that field is a literal (not an
operator mapping) and an index exists for it; returns the records at the
indexed positions that are still in range. -/
def indexProbe (db : DB) (table_name : String) (records : Table) (cond : Condition) :
    Option (List Record) :=
  match cond with
  | [(key, CondVal.lit value)] =>
    match alookupBy strEq db.indexes table_name with
    | none => none
    | some tidx =>
      match alookupBy strEq tidx key with
      | none => none
      | some idx =>
        some (((alookupBy pyEq idx value).getD []).filterMap fun i => records[i]?)
  | _ => none

/-- `select` (src/adb.py:319-363): missing table yields `[]`; no condition
yields a slice of the table; otherwise the index probe when applicable,
else a full scan; pagination applies identically after either path. -/
def select (db : DB) (table_name : String) (condition : Option Condition)
    (limit : Option Nat) (offset : Nat) : List Record :=
  match alookupBy strEq db.data table_name with
  | none => []
  | some records =>
    match condition with
    | none => pySlice records offset limit
    | some cond =>
      match indexProbe db table_name records cond with
      | some result => pySlice result offset limit
      | none => pySlice (selectScan records cond) offset limit

/-- `count` (src/adb.py:588-601): missing table yields `0`. -/
def count (db : DB) (table_name : String) (condition : Option Condition) : Nat :=
  match alookupBy strEq db.data table_name with
  | none => 0
  | some records =>
    match condition with
    | none => records.length
    | some cond => (records.filter fun r => matchCondition r cond).length

/-- The index-building scan of `create_index` (src/adb.py:1007-1013). -/
def buildIndex (records : Table) (column : String) : ColIndex :=
  records.enum.foldl
    (fun idx p =>
      match rget p.2 column with
      | some value => idxAppend idx value p.1
      | none => idx)
    []

/-- `create_index` (src/adb.py:987-1017): raises `TableNotFoundError` for a
missing table, materialises an empty index dict for the table, returns
`False` without touching anything further when an index for the column
already exists, and otherwise installs the freshly built index (no save). -/
def create_index (db : DB) (table_name : String) (column : String) :
    Except AdbErr (Bool × DB) :=
  match alookupBy strEq db.data table_name with
  | none => Except.error (.tableNotFound table_name)
  | some records =>
    let tidx := (alookupBy strEq db.indexes table_name).getD []
    let db1 := { db with indexes := asetBy strEq db.indexes table_name tidx }
    if (alookupBy strEq tidx column).isSome then
      Except.ok (false, db1)
    else
      let tidx' := asetBy strEq tidx column (buildIndex records column)
      Except.ok (true, { db1 with indexes := asetBy strEq db1.indexes table_name tidx' })

/-- `_rebuild_indexes` (src/adb.py:603-609): call `create_index` for every
column that already has an index on the table.  The `TableNotFoundError`
branch of `create_index` is unreachable from the call sites (which all
check table existence first) and is modelled as leaving the state alone. -/
def rebuildIndexes (db : DB) (table_name : String) : DB :=
  match alookupBy strEq db.indexes table_name with
  | none => db
  | some tidx =>
    (tidx.map Prod.fst).foldl
      (fun acc column =>
        match create_index acc table_name column with
        | Except.ok p => p.2
        | Except.error _ => acc)
      db

/-- The per-record loop of `update` (src/adb.py:538-549), mirroring
Python's in-place mutation: when a matching record fails validation the
exception aborts the loop, leaving earlier records already updated and the
failing record and all later ones untouched.  Returns the resulting table,
the number of records updated, and the error if one was raised. -/
def updateLoop (schema : Option Schema) (cond : Condition) (new_values : Record) (ts : Value) :
    Table → Table × Nat × Option AdbErr
  | [] => ([], 0, none)
  | r :: rs =>
    if matchCondition r cond then
      let temp := rupdate r new_values
      match (match schema with
             | none => Except.ok ()
             | some s => validateFields temp s) with
      | Except.error e => (r :: rs, 0, some e)
      | Except.ok _ =>
        let r' := rset (rupdate r new_values) "_updated_at" ts
        let (rs', n, e) := updateLoop schema cond new_values ts rs
        (r' :: rs', n + 1, e)
    else
      let (rs', n, e) := updateLoop schema cond new_values ts rs
      (r :: rs', n, e)

/-- `update` (src/adb.py:531-557): existence check, non-empty-condition
check, in-place update of every matching record (validating the merged
record first), then — only when something was updated — index rebuild and
save. -/
def update (db : DB) (table_name : String) (condition : Condition) (new_values : Record)
    (now : Nat) : Except AdbErr Nat × DB :=
  match alookupBy strEq db.data table_name with
  | none => (Except.error (.tableNotFound table_name), db)
  | some records =>
    if condition.isEmpty then (Except.error .conditionRequired, db)
    else
      let schema := alookupBy strEq db.schemas table_name
      let (records', n, e) := updateLoop schema condition new_values (tsOf now) records
      let db1 := { db with data := asetBy strEq db.data table_name records' }
      match e with
      | some err => (Except.error err, db1)
      | none =>
        if n > 0 then
          let db2 := rebuildIndexes db1 table_name
          let (_, db3) := save_database now db2
          (Except.ok n, db3)
        else (Except.ok n, db1)

/-- `delete` (src/adb.py:559-582): existence check, non-empty-condition
check, keep only the records that do not match, then — only when something
was deleted — index rebuild and save. -/
def delete (db : DB) (table_name : String) (condition : Condition) (now : Nat) :
    Except AdbErr Nat × DB :=
  match alookupBy strEq db.data table_name with
  | none => (Except.error (.tableNotFound table_name), db)
  | some records =>
    if condition.isEmpty then (Except.error .conditionRequired, db)
    else
      let kept := records.filter fun r => !(matchCondition r condition)
      let deleted_count := records.length - kept.length
      let db1 := { db with data := asetBy strEq db.data table_name kept }
      if deleted_count > 0 then
        let db2 := rebuildIndexes db1 table_name
        let (_, db3) := save_database now db2
        (Except.ok deleted_count, db3)
      else (Except.ok deleted_count, db1)

/-- The `transaction` context manager (src/adb.py:386-412).  The body is a
caller-supplied computation over the state; in Python an exception raised
in the body propagates while every mutation made before the raise persists,
so a body is modelled as returning both an optional error and the state at
the moment of return/raise.  On entry with an active transaction the
"transaction already active" error is raised; otherwise the table data is
snapshotted, the body runs with the active flag set, a normal completion
saves once (with the flag still set — the `finally` clears it afterwards),
and an error restores `data` from the snapshot (indexes and schemas are
not snapshotted) and re-raises. -/
def transaction (db : DB) (body : DB → Option AdbErr × DB) (now : Nat) :
    Option AdbErr × DB :=
  if db.transaction_active then (some .transactionActive, db)
  else
    let backup := db.data
    let db0 := { db with transaction_active := true, transaction_backup := some backup }
    let (res, db1) := body db0
    match res with
    | none =>
      let (_, db2) := save_database now db1
      (none, { db2 with transaction_active := false, transaction_backup := none })
    | some e =>
      (some e, { db1 with data := backup, transaction_active := false, transaction_backup := none })

/-- One aggregation stage: `{"$group": {"_id": field}}`,
`{"$match": condition}`, or an unrecognised stage (ignored by
`aggregate`).  A stage dict containing both keys is treated as `$group`,
matching the `if '$group' ... elif '$match'` order of the source. -/
inductive Stage where
  | group : String → Stage
  | matchStage : Condition → Stage
  | other : Stage
deriving DecidableEq

/-- The group key of a record: `record.get(group_key, 'null')` — note the
default is the Python string `'null'` (src/adb.py:477). -/
def groupKeyOf (group_key : String) (r : Record) : Value :=
  (rget r group_key).getD (Value.str "null")

/-- One record's contribution to the `$group` accumulator
(src/adb.py:476-480): create a zero-count entry for an unseen key, then
increment its count. -/
def bumpKey (res : List (Value × Nat)) (key : Value) : List (Value × Nat) :=
  match alookupBy pyEq res key with
  | some n => asetBy pyEq res key (n + 1)
  | none => res ++ [(key, 1)]

/-- Execute one aggregation stage over the working set
(src/adb.py:470-487). -/
def runStage (records : List Record) : Stage → List Record
  | .group group_key =>
    ((records.foldl (fun res r => bumpKey res (groupKeyOf group_key r)) []).map
      fun p => [("_id", p.1), ("count", Value.int p.2)])
  | .matchStage condition => records.filter fun r => matchCondition r condition
  | .other => records

/-- `aggregate` (src/adb.py:447-489): missing table yields `[]`; stages
run strictly in order, each consuming the previous working set. -/
def aggregate (db : DB) (table_name : String) (pipeline : List Stage) : List Record :=
  match alookupBy strEq db.data table_name with
  | none => []
  | some records => pipeline.foldl runStage records

/-! ### Specification-side helpers

Canonical forms and counting functions used to state what the `$group`
stage computes; they are not part of the embedded engine. -/

/-- Canonical form of a value under Python `==`: booleans are identified
with their numeric value.  `pyEq a b` holds exactly when the canonical
forms are equal. -/
def canon : Value → Value
  | .bool b => .int (if b then 1 else 0)
  | v => v

/-- Python `key in seen` for a list of values (dict-key membership,
i.e. membership up to `pyEq`). -/
def memV (k : Value) : List Value → Bool
  | [] => false
  | x :: t => pyEq x k || memV k t

/-- The keys of `ks` not already `pyEq`-present in `seen`, keeping the
first occurrence of each `pyEq`-class, in first-occurrence order. -/
def dedupFirstFrom : List Value → List Value → List Value
  | _, [] => []
  | seen, k :: t =>
    if memV k seen then dedupFirstFrom seen t
    else k :: dedupFirstFrom (seen ++ [k]) t

/-- First occurrences of the `pyEq`-classes of `ks`, in order. -/
def dedupFirst (ks : List Value) : List Value := dedupFirstFrom [] ks

/-- How many elements of `l` are `pyEq`-equal to `k`. -/
def cntV (k : Value) (l : List Value) : Nat :=
  (l.filter fun x => pyEq x k).length

/-! ### Concrete scenarios

States reached by running the embedded facade operations, used by the
concrete theorems below.  Logical timestamps are supplied explicitly. -/

/-- A fresh database containing the empty table `staff` (the state
`create_table "staff"` produces, src/adb.py:233-234). -/
def staffBase : DB :=
  { data := [("staff", [])], indexes := [("staff", [])], schemas := [] }

def staffR1 : Record := [("dept", Value.str "eng"), ("age", Value.int 20)]

def staffR2 : Record := [("dept", Value.str "eng"), ("age", Value.int 40)]

def staffR3 : Record := [("dept", Value.str "hr"), ("age", Value.int 30)]

/-- `staff` after inserting the three records of spec scenario 2/3. -/
def staffLoaded : DB :=
  (insert (insert (insert staffBase "staff" staffR1 0).2 "staff" staffR2 0).2 "staff" staffR3 0).2

/-- `staff` after `create_index("staff", "dept")`. -/
def staffIndexed : DB :=
  match create_index staffLoaded "staff" "dept" with
  | Except.ok p => p.2
  | Except.error _ => staffLoaded

/-- `staff` after deleting the age-20 record at a later clock tick. -/
def staffAfterDelete : DB :=
  (delete staffIndexed "staff" [("age", CondVal.lit (Value.int 20))] 5).2

/-- The stored form of `staffR1` (with system fields). -/
def staffR1Stored : Record :=
  [("dept", Value.str "eng"), ("age", Value.int 20),
   ("_created_at", Value.str "0"), ("_id", Value.int 1)]

def staffR2Stored : Record :=
  [("dept", Value.str "eng"), ("age", Value.int 40),
   ("_created_at", Value.str "0"), ("_id", Value.int 2)]

def staffR3Stored : Record :=
  [("dept", Value.str "hr"), ("age", Value.int 30),
   ("_created_at", Value.str "0"), ("_id", Value.int 3)]

/-- A fresh database containing the empty table `t` with one record
`{c: 1}` inserted and an index created on column `c`. -/
def c6Base : DB := { data := [("t", [])], indexes := [("t", [])], schemas := [] }

def c6Loaded : DB := (insert c6Base "t" [("c", Value.int 1)] 0).2

def c6Indexed : DB :=
  match create_index c6Loaded "t" "c" with
  | Except.ok p => p.2
  | Except.error _ => c6Loaded

/-- The state after `update("t", {c: 1}, {c: 2})`. -/
def c6Updated : DB :=
  (update c6Indexed "t" [("c", CondVal.lit (Value.int 1))] [("c", Value.int 2)] 3).2

/-- The stored record after the update. -/
def c6UpdatedRec : Record :=
  [("c", Value.int 2), ("_created_at", Value.str "0"),
   ("_id", Value.int 1), ("_updated_at", Value.str "3")]

/-- A one-record table `t` with an index on column `a`. -/
def c3Base : DB :=
  { data := [("t", [[("a", Value.int 0)]])],
    indexes := [("t", [("a", [(Value.int 0, [0])])])],
    schemas := [] }

/-- A transaction body that inserts `{a: 1}` and then raises. -/
def c3Body : DB → Option AdbErr × DB := fun db =>
  let p := insert db "t" [("a", Value.int 1)] 5
  (some AdbErr.userError, p.2)

/-- The state at the moment `c3Body` raises. -/
def c3AfterBody : DB :=
  (c3Body { c3Base with transaction_active := true, transaction_backup := some c3Base.data }).2

/-- A two-record table `u` holding `{b: 7}` and `{b: 8}`. -/
def c4Base : DB :=
  { data := [("u", [[("b", Value.int 7)], [("b", Value.int 8)]])],
    indexes := [("u", [])], schemas := [] }

/-- A transaction body that inserts `{b: 9}` and then raises. -/
def c4Body : DB → Option AdbErr × DB := fun db =>
  let p := insert db "u" [("b", Value.int 9)] 4
  (some AdbErr.userError, p.2)

/-- The state at the moment `c4Body` raises. -/
def c4AfterBody : DB :=
  (c4Body { c4Base with transaction_active := true, transaction_backup := some c4Base.data }).2

/-- An empty table `t` whose last save happened at clock 10, so that a
save at clock 10 outside a transaction is throttled. -/
def c5Base : DB :=
  { data := [("t", [])], indexes := [], schemas := [], last_save_time := 10 }

/-- A transaction body that inserts `{a: 1}` at clock 10 and completes
normally. -/
def c5Body : DB → Option AdbErr × DB := fun db =>
  let p := insert db "t" [("a", Value.int 1)] 10
  (none, p.2)

/-- The state after `c5Body` ran inside the transaction. -/
def c5AfterBody : DB :=
  (c5Body { c5Base with transaction_active := true, transaction_backup := some c5Base.data }).2

/-- Some state flagged as being inside an active transaction. -/
def c5TxState : DB :=
  { data := [("t", [[("a", Value.int 3)]])], indexes := [], schemas := [],
    transaction_active := true, last_save_time := 10 }

/-- The `users` table of spec scenario 1, with schema
`{name: {type: str, required: True, max_length: 5}}`. -/
def usersBase : DB :=
  { data := [("users", [])], indexes := [("users", [])],
    schemas := [("users",
      [("name", { type := some PyType.str, required := true, max_length := some 5 })])] }

/-- `users` after the accepted insert of `{name: "ab"}`. -/
def usersAfterOk : DB := (insert usersBase "users" [("name", Value.str "ab")] 1).2

/-- A one-record table whose record lacks the field `b`. -/
def c8Base : DB :=
  { data := [("t", [[("a", Value.int 1)]])], indexes := [], schemas := [] }

/-- A database with no tables at all. -/
def emptyBase : DB := { data := [], indexes := [], schemas := [] }

/-- A two-record table `w` used to instantiate the general theorems. -/
def c10Base : DB :=
  { data := [("w", [[("x", Value.int 1)], [("x", Value.int 2)]])],
    indexes := [("w", [("x", [(Value.int 1, [0]), (Value.int 2, [1])])])],
    schemas := [] }

/-- Decidable equality of operation results. -/
instance {ε α : Type} [DecidableEq ε] [DecidableEq α] : DecidableEq (Except ε α) := fun a b =>
  match a, b with
  | Except.ok x, Except.ok y =>
    if h : x = y then isTrue (by rw [h]) else isFalse (by intro hc; cases hc; exact h rfl)
  | Except.error x, Except.error y =>
    if h : x = y then isTrue (by rw [h]) else isFalse (by intro hc; cases hc; exact h rfl)
  | Except.ok _, Except.error _ => isFalse (by intro hc; cases hc)
  | Except.error _, Except.ok _ => isFalse (by intro hc; cases hc)

/-! ### Library lemmas -/

theorem alookupStr_asetStr_self {β : Type} (l : List (String × β)) (k : String) (v : β) :
    alookupBy strEq (asetBy strEq l k v) k = some v := by
  induction l with
  | nil => simp [asetBy, alookupBy, strEq]
  | cons hd tl ih =>
    obtain ⟨k', v'⟩ := hd
    by_cases h : k' = k
    · simp [asetBy, alookupBy, strEq, h]
    · simp [asetBy, alookupBy, strEq, h, ih]

theorem alookupStr_asetStr_ne {β : Type} (l : List (String × β)) (k k2 : String) (v : β)
    (h : k2 ≠ k) : alookupBy strEq (asetBy strEq l k v) k2 = alookupBy strEq l k2 := by
  induction l with
  | nil => simp [asetBy, alookupBy, strEq, Ne.symm h]
  | cons hd tl ih =>
    obtain ⟨k', v'⟩ := hd
    by_cases h2 : k' = k
    · subst h2
      simp [asetBy, alookupBy, strEq, Ne.symm h]
    · simp [asetBy, alookupBy, strEq, h2, ih]

theorem save_database_data (now : Nat) (db : DB) : (save_database now db).2.data = db.data := by
  unfold save_database
  split <;> rfl

/-- While a transaction is active, the throttle condition of
`save_database` is false and the save is always performed. -/
theorem save_database_active (now : Nat) (db : DB) (h : db.transaction_active = true) :
    save_database now db =
      (true, { db with disk := db.data :: db.disk, last_save_time := now }) := by
  unfold save_database
  rw [if_neg (by simp [h])]

theorem updateIndexesForInsert_data (db : DB) (tbl : String) (r : Record) (i : Nat) :
    (updateIndexesForInsert db tbl r i).data = db.data := by
  unfold updateIndexesForInsert
  split <;> rfl

theorem opCheck_none (g : Option Value) (bad : Value → Value → Bool) :
    opCheck g none bad = false := by
  cases g <;> rfl

theorem likeFail_none (p : Option Value) : likeFail p none = false := by
  cases p <;> rfl

theorem rget_none_of_rhas_false {r : Record} {k : String} (h : rhas r k = false) :
    rget r k = none := by
  unfold rhas at h
  cases hg : rget r k with
  | none => rfl
  | some v => rw [hg] at h; simp at h

theorem opsFail_of_rget_none {r : Record} {k : String} (m : List (String × Value))
    (h : rget r k = none) : opsFail r k m = false := by
  simp [opsFail, h, opCheck_none, likeFail_none]

/-- Error path of the transaction manager, characterised: the body's
error is re-raised, `data` is restored from the snapshot, and the
transaction flags are cleared; every other component of the state at the
moment of the raise (indexes, schemas, disk, save clock) is kept. -/
theorem transaction_error_state (db : DB) (body : DB → Option AdbErr × DB) (now : Nat)
    (e : AdbErr) (db1 : DB) (h1 : db.transaction_active = false)
    (h2 : body { db with transaction_active := true, transaction_backup := some db.data } =
        (some e, db1)) :
    transaction db body now =
      (some e,
       { db1 with data := db.data, transaction_active := false, transaction_backup := none }) := by
  unfold transaction
  rw [if_neg (by simp [h1])]
  simp only [h2]

/-- Success path of the transaction manager, characterised: one save of
the body's final state, then the transaction flags are cleared. -/
theorem transaction_ok_state (db : DB) (body : DB → Option AdbErr × DB) (now : Nat)
    (db1 : DB) (h1 : db.transaction_active = false)
    (h2 : body { db with transaction_active := true, transaction_backup := some db.data } =
        (none, db1)) :
    transaction db body now =
      (none,
       { (save_database now db1).2 with
           transaction_active := false, transaction_backup := none }) := by
  unfold transaction
  rw [if_neg (by simp [h1])]
  simp only [h2]

/-! ### Claim theorems -/

/-- C1: refuted by the code — `_rebuild_indexes` calls `create_index`,
which returns `False` without rebuilding because the index already exists,
so after deleting the age-20 record the `dept` index still maps `"eng"` to
the old positions 0 and 1 and the indexed query returns the age-40 record
*and* the hr record instead of exactly the age-40 record. -/
theorem C1_delete_leaves_stale_index :
    select staffIndexed "staff" (some [("dept", CondVal.lit (Value.str "eng"))]) none 0 =
        [staffR1Stored, staffR2Stored] ∧
    (delete staffIndexed "staff" [("age", CondVal.lit (Value.int 20))] 5).1 = Except.ok 1 ∧
    select staffAfterDelete "staff" (some [("dept", CondVal.lit (Value.str "eng"))]) none 0 =
        [staffR2Stored, staffR3Stored] ∧
    select staffAfterDelete "staff" (some [("dept", CondVal.lit (Value.str "eng"))]) none 0 ≠
        [staffR2Stored] ∧
    alookupBy strEq staffAfterDelete.indexes "staff" =
        alookupBy strEq staffIndexed.indexes "staff" := by
  decide

/-- C2, counterexample: a record missing the field `age` *does* match the
condition `{age: {"$gt": 5}}` — the comparison is skipped, not failed. -/
theorem C2_missing_field_matches_range :
    rhas [] "age" = false ∧
    matchCondition [] [("age", CondVal.ops [("$gt", Value.int 5)])] = true := by
  decide

/-- C2, amended: a field missing from the record causes every
`$gt/$gte/$lt/$lte/$like` check on that field to be skipped (the operator
mapping is vacuously satisfied and matching continues with the remaining
fields), while a literal equality condition on a missing field makes the
record fail to match. -/
theorem C2_missing_field_semantics (r : Record) (k : String) (m : List (String × Value))
    (rest : Condition) (h : rhas r k = false) :
    matchCondition r ((k, CondVal.ops m) :: rest) = matchCondition r rest ∧
    (∀ v : Value, matchCondition r ((k, CondVal.lit v) :: rest) = false) := by
  have hg : rget r k = none := rget_none_of_rhas_false h
  constructor
  · simp [matchCondition, opsFail_of_rget_none m hg]
  · intro v
    simp [matchCondition, hg]

theorem C2_missing_field_semantics_witness :
    matchCondition [("x", Value.int 1)] [("age", CondVal.ops [("$gt", Value.int 5)])] =
        matchCondition [("x", Value.int 1)] [] ∧
    (∀ v : Value, matchCondition [("x", Value.int 1)] [("age", CondVal.lit v)] = false) :=
  C2_missing_field_semantics [("x", Value.int 1)] "age" [("$gt", Value.int 5)] [] (by decide)

/-- C3, counterexample: a transaction that inserts one record into a table
carrying an index and then raises restores the table data exactly, but the
index is *not* restored — it keeps the position entry added for the
rolled-back insert. -/
theorem C3_counterexample_index_not_restored :
    (transaction c3Base c3Body 5).2.data = c3Base.data ∧
    (transaction c3Base c3Body 5).2.indexes ≠ c3Base.indexes ∧
    alookupBy strEq (transaction c3Base c3Body 5).2.indexes "t" =
        some [("a", [(Value.int 0, [0]), (Value.int 1, [1])])] := by
  decide

/-- C3, amended: a transaction whose body raises leaves the table data
value-identical to the pre-transaction state (hence exactly N records in
each pre-existing table), but the indexes are not rolled back: they remain
exactly as the body left them, including entries added for the rolled-back
inserts. -/
theorem C3_rollback_data_only (db : DB) (body : DB → Option AdbErr × DB) (now : Nat)
    (e : AdbErr) (db1 : DB) (h1 : db.transaction_active = false)
    (h2 : body { db with transaction_active := true, transaction_backup := some db.data } =
        (some e, db1)) :
    (transaction db body now).2.data = db.data ∧
    (∀ tbl rs, alookupBy strEq db.data tbl = some rs →
        alookupBy strEq (transaction db body now).2.data tbl = some rs) ∧
    (transaction db body now).2.indexes = db1.indexes := by
  rw [transaction_error_state db body now e db1 h1 h2]
  exact ⟨rfl, fun tbl rs h => h, rfl⟩

theorem C3_rollback_data_only_witness :
    (transaction c3Base c3Body 5).2.data = c3Base.data ∧
    (∀ tbl rs, alookupBy strEq c3Base.data tbl = some rs →
        alookupBy strEq (transaction c3Base c3Body 5).2.data tbl = some rs) ∧
    (transaction c3Base c3Body 5).2.indexes = c3AfterBody.indexes :=
  C3_rollback_data_only c3Base c3Body 5 AdbErr.userError c3AfterBody (by decide) (by decide)

/-- C4: when the body of a transaction raises, the result state is exactly
the state at the moment of the raise with `data` replaced by the full
pre-transaction snapshot (a value-level restore), the transaction-active
flag and backup cleared, and the body's original error is the one
propagated. -/
theorem C4_rollback_semantics (db : DB) (body : DB → Option AdbErr × DB) (now : Nat)
    (e : AdbErr) (db1 : DB) (h1 : db.transaction_active = false)
    (h2 : body { db with transaction_active := true, transaction_backup := some db.data } =
        (some e, db1)) :
    transaction db body now =
      (some e,
       { db1 with data := db.data, transaction_active := false, transaction_backup := none }) :=
  transaction_error_state db body now e db1 h1 h2

theorem C4_rollback_semantics_witness :
    transaction c4Base c4Body 4 =
      (some AdbErr.userError,
       { c4AfterBody with
           data := c4Base.data, transaction_active := false, transaction_backup := none }) :=
  C4_rollback_semantics c4Base c4Body 4 AdbErr.userError c4AfterBody (by decide) (by decide)

/-- C5, counterexample: with the last save at clock 10, a transaction at
clock 10 whose body performs a single insert writes to the database file
*during the body* (`disk` grows before the commit) and writes again at
commit — two durable writes, where the claim allows none during the body
and at most one at commit.  The same insert outside a transaction at the
same clock performs no durable write at all (it is throttled). -/
theorem C5_counterexample_body_writes :
    c5AfterBody.disk.length = 1 ∧
    (transaction c5Base c5Body 10).2.disk.length = 2 ∧
    ¬ (transaction c5Base c5Body 10).2.disk.length ≤ 1 ∧
    (insert c5Base "t" [("a", Value.int 1)] 10).2.disk.length = 0 := by
  decide

/-- C5, amended: persistence is *not* suppressed inside a transaction —
the save throttle of `save_database` is disabled precisely while the
transaction-active flag is set, so every save reached during the body is
performed immediately, and a normally-completing transaction performs one
further durable write at commit (on top of those done by the body). -/
theorem C5_transaction_saves_not_suppressed :
    (∀ (db : DB) (now : Nat), db.transaction_active = true →
        (save_database now db).2.disk = db.data :: db.disk) ∧
    (∀ (db : DB) (body : DB → Option AdbErr × DB) (now : Nat) (db1 : DB),
        db.transaction_active = false →
        body { db with transaction_active := true, transaction_backup := some db.data } =
            (none, db1) →
        db1.transaction_active = true →
        (transaction db body now).2.disk = db1.data :: db1.disk) := by
  constructor
  · intro db now h
    rw [save_database_active now db h]
  · intro db body now db1 h1 h2 h3
    rw [transaction_ok_state db body now db1 h1 h2]
    rw [save_database_active now db1 h3]

theorem C5_transaction_saves_not_suppressed_witness :
    (save_database 10 c5TxState).2.disk = c5TxState.data :: c5TxState.disk ∧
    (transaction c5Base c5Body 10).2.disk = c5AfterBody.data :: c5AfterBody.disk :=
  ⟨C5_transaction_saves_not_suppressed.1 c5TxState 10 (by decide),
   C5_transaction_saves_not_suppressed.2 c5Base c5Body 10 c5AfterBody
     (by decide) (by decide) (by decide)⟩

/-- C6: refuted by the code — after `update` changes the indexed column
`c` from 1 to 2, the "rebuilt" index still maps only the old value, so the
index-assisted query for `{c: 2}` returns nothing while the full scan of
the same table for the same condition returns the updated record. -/
theorem C6_index_scan_disagree :
    select c6Updated "t" (some [("c", CondVal.lit (Value.int 2))]) none 0 = [] ∧
    pySlice (selectScan ((alookupBy strEq c6Updated.data "t").getD [])
        [("c", CondVal.lit (Value.int 2))]) 0 none = [c6UpdatedRec] ∧
    select c6Updated "t" (some [("c", CondVal.lit (Value.int 2))]) none 0 ≠
      pySlice (selectScan ((alookupBy strEq c6Updated.data "t").getD [])
        [("c", CondVal.lit (Value.int 2))]) 0 none := by
  decide

/-- C7: an insert that fails (in particular on any schema-constraint
violation: missing required field, type mismatch, `max_length` overflow)
surfaces precisely the validation error and returns the database
unchanged — record count and indexes included; a successful insert appends
exactly one record, whose `_id` is the pre-insertion record count plus 1
(so the first insert into an empty table yields `_id = 1`). -/
theorem C7_insert_validation (db : DB) (tbl : String) (r : Record) (now : Nat) (rs : Table)
    (hlook : alookupBy strEq db.data tbl = some rs)
    (hlen : rs.length < max_records) :
    (∀ e, validateRecord db.schemas tbl r = Except.error e →
        insert db tbl r now = (Except.error e, db)) ∧
    (∀ e db', insert db tbl r now = (Except.error e, db') → db' = db) ∧
    (∀ b db', insert db tbl r now = (Except.ok b, db') →
        alookupBy strEq db'.data tbl = some (rs ++ [insertedRecord r rs.length now]) ∧
        rget (insertedRecord r rs.length now) "_id" = some (Value.int (rs.length + 1))) := by
  have hnotge : ¬ rs.length ≥ max_records := by omega
  refine ⟨?_, ?_, ?_⟩
  · intro e hval
    simp only [insert, hlook]
    rw [if_neg hnotge, hval]
  · intro e db' hins
    simp only [insert, hlook] at hins
    rw [if_neg hnotge] at hins
    cases hval : validateRecord db.schemas tbl r with
    | error e2 =>
      rw [hval] at hins
      rw [Prod.mk.injEq] at hins
      exact hins.2.symm
    | ok u =>
      rw [hval] at hins
      rw [Prod.mk.injEq] at hins
      exact absurd hins.1 (by simp)
  · intro b db' hins
    simp only [insert, hlook] at hins
    rw [if_neg hnotge] at hins
    cases hval : validateRecord db.schemas tbl r with
    | error e2 =>
      rw [hval] at hins
      rw [Prod.mk.injEq] at hins
      exact absurd hins.1 (by simp)
    | ok u =>
      rw [hval] at hins
      rw [Prod.mk.injEq] at hins
      obtain ⟨h1, h2⟩ := hins
      subst h2
      refine ⟨?_, ?_⟩
      · rw [save_database_data]
        exact alookupStr_asetStr_self _ _ _
      · unfold insertedRecord
        exact alookupStr_asetStr_self _ _ _

theorem C7_insert_validation_witness :
    ((∀ e, validateRecord usersBase.schemas "users" [("name", Value.str "ab")] = Except.error e →
        insert usersBase "users" [("name", Value.str "ab")] 1 = (Except.error e, usersBase)) ∧
     (∀ e db', insert usersBase "users" [("name", Value.str "ab")] 1 = (Except.error e, db') →
        db' = usersBase) ∧
     (∀ b db', insert usersBase "users" [("name", Value.str "ab")] 1 = (Except.ok b, db') →
        alookupBy strEq db'.data "users" =
            some (([] : Table) ++ [insertedRecord [("name", Value.str "ab")] 0 1]) ∧
        rget (insertedRecord [("name", Value.str "ab")] 0 1) "_id" =
            some (Value.int 1))) ∧
    (∀ e, validateRecord usersAfterOk.schemas "users" [("name", Value.str "toolong")] =
        Except.error e →
        insert usersAfterOk "users" [("name", Value.str "toolong")] 2 =
          (Except.error e, usersAfterOk)) ∧
    validateRecord usersAfterOk.schemas "users" [("name", Value.str "toolong")] =
        Except.error (AdbErr.fieldTooLong "name") :=
  ⟨C7_insert_validation usersBase "users" [("name", Value.str "ab")] 1 [] (by decide) (by decide),
   (C7_insert_validation usersAfterOk "users" [("name", Value.str "toolong")] 2
      [insertedRecord [("name", Value.str "ab")] 0 1] (by decide) (by decide)).1,
   by decide⟩

/-- C10: the system fields `_id` and `_created_at` are added only to the
fresh copy of the caller's record (src/adb.py:296-301 mutate `record_copy`,
never `record`), the caller's dict is unchanged by the call, and it is
that copy which is appended on success — it agrees with the caller's
record on every other field; a failed insert appends nothing. -/
theorem C10_insert_copies_record (db : DB) (tbl : String) (r : Record) (now : Nat)
    (rs : Table) (hlook : alookupBy strEq db.data tbl = some rs) :
    (insertRecordEffect r rs.length now).1 = r ∧
    (∀ k, k ≠ "_id" → k ≠ "_created_at" →
        rget (insertRecordEffect r rs.length now).2 k = rget r k) ∧
    (∀ b db', insert db tbl r now = (Except.ok b, db') →
        alookupBy strEq db'.data tbl = some (rs ++ [(insertRecordEffect r rs.length now).2])) ∧
    (∀ e db', insert db tbl r now = (Except.error e, db') → db'.data = db.data) := by
  refine ⟨rfl, ?_, ?_, ?_⟩
  · intro k hk1 hk2
    show rget (rset (rset r "_created_at" (tsOf now)) "_id" (Value.int (rs.length + 1))) k =
        rget r k
    unfold rget rset
    rw [alookupStr_asetStr_ne _ _ _ _ hk1, alookupStr_asetStr_ne _ _ _ _ hk2]
  · intro b db' hins
    simp only [insert, hlook] at hins
    by_cases hge : rs.length ≥ max_records
    · rw [if_pos hge] at hins
      rw [Prod.mk.injEq] at hins
      exact absurd hins.1 (by simp)
    · rw [if_neg hge] at hins
      cases hval : validateRecord db.schemas tbl r with
      | error e2 =>
        rw [hval] at hins
        rw [Prod.mk.injEq] at hins
        exact absurd hins.1 (by simp)
      | ok u =>
        rw [hval] at hins
        rw [Prod.mk.injEq] at hins
        obtain ⟨h1, h2⟩ := hins
        subst h2
        rw [save_database_data]
        exact alookupStr_asetStr_self _ _ _
  · intro e db' hins
    simp only [insert, hlook] at hins
    by_cases hge : rs.length ≥ max_records
    · rw [if_pos hge] at hins
      rw [Prod.mk.injEq] at hins
      rw [← hins.2]
    · rw [if_neg hge] at hins
      cases hval : validateRecord db.schemas tbl r with
      | error e2 =>
        rw [hval] at hins
        rw [Prod.mk.injEq] at hins
        rw [← hins.2]
      | ok u =>
        rw [hval] at hins
        rw [Prod.mk.injEq] at hins
        exact absurd hins.1 (by simp)

theorem C10_insert_copies_record_witness :
    (insertRecordEffect [("x", Value.int 9)] 2 6).1 = [("x", Value.int 9)] ∧
    (∀ k, k ≠ "_id" → k ≠ "_created_at" →
        rget (insertRecordEffect [("x", Value.int 9)] 2 6).2 k =
          rget [("x", Value.int 9)] k) ∧
    (∀ b db', insert c10Base "w" [("x", Value.int 9)] 6 = (Except.ok b, db') →
        alookupBy strEq db'.data "w" =
          some ([[("x", Value.int 1)], [("x", Value.int 2)]] ++
            [(insertRecordEffect [("x", Value.int 9)] 2 6).2])) ∧
    (∀ e db', insert c10Base "w" [("x", Value.int 9)] 6 = (Except.error e, db') →
        db'.data = c10Base.data) :=
  C10_insert_copies_record c10Base "w" [("x", Value.int 9)] 6
    [[("x", Value.int 1)], [("x", Value.int 2)]] (by decide)

/-- C9: `select` on a missing table returns `[]` and `count` returns `0`
(neither raises), while `insert`, `update` and `delete` raise
`TableNotFoundError` and leave the state untouched. -/
theorem C9_missing_table_behaviour (db : DB) (tbl : String) (cond : Option Condition)
    (limit : Option Nat) (offset : Nat) (cond2 : Condition) (r nv : Record) (now : Nat)
    (h : alookupBy strEq db.data tbl = none) :
    select db tbl cond limit offset = [] ∧
    count db tbl cond = 0 ∧
    insert db tbl r now = (Except.error (AdbErr.tableNotFound tbl), db) ∧
    update db tbl cond2 nv now = (Except.error (AdbErr.tableNotFound tbl), db) ∧
    delete db tbl cond2 now = (Except.error (AdbErr.tableNotFound tbl), db) := by
  refine ⟨?_, ?_, ?_, ?_, ?_⟩ <;> simp [select, count, insert, update, delete, h]

theorem C9_missing_table_behaviour_witness :
    select emptyBase "users" none none 0 = [] ∧
    count emptyBase "users" none = 0 ∧
    insert emptyBase "users" [("a", Value.int 1)] 0 =
        (Except.error (AdbErr.tableNotFound "users"), emptyBase) ∧
    update emptyBase "users" [("a", CondVal.lit (Value.int 1))] [("a", Value.int 2)] 0 =
        (Except.error (AdbErr.tableNotFound "users"), emptyBase) ∧
    delete emptyBase "users" [("a", CondVal.lit (Value.int 1))] 0 =
        (Except.error (AdbErr.tableNotFound "users"), emptyBase) :=
  C9_missing_table_behaviour emptyBase "users" none none 0
    [("a", CondVal.lit (Value.int 1))] [("a", Value.int 1)] [("a", Value.int 2)] 0 (by decide)

/-! ### Lemmas for the `$group` characterisation -/

theorem pyEq_canon (a b : Value) : pyEq a b = decide (canon a = canon b) := by
  cases a <;> cases b <;> simp [pyEq, numOf, canon, decide_eq_decide]

theorem pyEq_refl (a : Value) : pyEq a a = true := by
  rw [pyEq_canon]
  simp

theorem pyEq_symm_false {a b : Value} (h : pyEq a b = false) : pyEq b a = false := by
  rw [pyEq_canon] at h ⊢
  simp only [decide_eq_false_iff_not] at h ⊢
  exact fun hh => h hh.symm

theorem memV_iff_exists (x : Value) (s : List Value) :
    memV x s = true ↔ ∃ y ∈ s, canon y = canon x := by
  induction s with
  | nil => simp [memV]
  | cons z t ih => simp [memV, pyEq_canon, ih]

theorem memV_append (x : Value) (s1 s2 : List Value) :
    memV x (s1 ++ s2) = (memV x s1 || memV x s2) := by
  induction s1 with
  | nil => simp [memV]
  | cons z t ih => simp [memV, ih, Bool.or_assoc]

theorem alookupV_isSome_eq_memV (l : List (Value × Nat)) (k : Value) :
    (alookupBy pyEq l k).isSome = memV k (l.map Prod.fst) := by
  induction l with
  | nil => rfl
  | cons hd tl ih =>
    obtain ⟨k', v'⟩ := hd
    by_cases h : pyEq k' k = true
    · simp [alookupBy, memV, h]
    · have h' : pyEq k' k = false := by simpa using h
      simp [alookupBy, memV, h', ih]

theorem asetBy_map_fst_of_isSome (l : List (Value × Nat)) (k : Value) (v : Nat)
    (h : (alookupBy pyEq l k).isSome = true) :
    (asetBy pyEq l k v).map Prod.fst = l.map Prod.fst := by
  induction l with
  | nil => simp [alookupBy] at h
  | cons hd tl ih =>
    obtain ⟨k', v'⟩ := hd
    by_cases hh : pyEq k' k = true
    · simp [asetBy, hh]
    · have hh' : pyEq k' k = false := by simpa using hh
      rw [alookupBy, if_neg (by simp [hh'])] at h
      simp [asetBy, hh', ih h]

theorem asetBy_of_none (l : List (Value × Nat)) (k : Value) (v : Nat)
    (h : alookupBy pyEq l k = none) :
    asetBy pyEq l k v = l ++ [(k, v)] := by
  induction l with
  | nil => rfl
  | cons hd tl ih =>
    obtain ⟨k', v'⟩ := hd
    by_cases hh : pyEq k' k = true
    · rw [alookupBy, if_pos (by simp [hh])] at h
      cases h
    · have hh' : pyEq k' k = false := by simpa using hh
      rw [alookupBy, if_neg (by simp [hh'])] at h
      simp [asetBy, hh', ih h]

theorem cntV_cons (k' k : Value) (t : List Value) :
    cntV k' (k :: t) = (if pyEq k k' = true then 1 else 0) + cntV k' t := by
  by_cases h : pyEq k k' = true
  · simp [cntV, List.filter_cons, h, Nat.add_comm]
  · have h' : pyEq k k' = false := by simpa using h
    simp [cntV, List.filter_cons, h']

theorem cntV_cons_of_ne {k' k : Value} (t : List Value) (h : pyEq k k' = false) :
    cntV k' (k :: t) = cntV k' t := by
  rw [cntV_cons]
  simp [h]

theorem memV_of_mem_dedupFirstFrom (t : List Value) :
    ∀ (seen : List Value) (x : Value), x ∈ dedupFirstFrom seen t → memV x seen = false := by
  induction t with
  | nil =>
    intro seen x hx
    simp [dedupFirstFrom] at hx
  | cons k tt ih =>
    intro seen x hx
    by_cases h : memV k seen = true
    · rw [dedupFirstFrom, if_pos h] at hx
      exact ih seen x hx
    · have h' : memV k seen = false := by simpa using h
      rw [dedupFirstFrom, if_neg (by simp [h'])] at hx
      rcases List.mem_cons.mp hx with rfl | hx2
      · exact h'
      · have h3 := ih (seen ++ [k]) x hx2
        rw [memV_append] at h3
        exact (Bool.or_eq_false_iff.mp h3).1

/-- If `k` is not (pyEq-)seen among `keys` but `p` is a member of `keys`,
then `k` and `p` are pyEq-distinct. -/
theorem pyEq_false_of_memV_false {k p : Value} {keys : List Value}
    (hmem : memV k keys = false) (hp : p ∈ keys) : pyEq k p = false := by
  rw [pyEq_canon]
  simp only [decide_eq_false_iff_not]
  intro hc
  have : memV k keys = true := (memV_iff_exists k keys).mpr ⟨p, hp, hc.symm⟩
  rw [this] at hmem
  cases hmem

/-- The update step of the `$group` accumulator: incrementing the entry of
an existing key `k` is the same as adding, entrywise, the head `k`'s
contribution to the counts (under pyEq-distinct keys). -/
theorem asetBy_incr_map (acc : List (Value × Nat)) (k : Value) (n : Nat) (t : List Value)
    (hnd : ((acc.map Prod.fst).map canon).Nodup)
    (hn : alookupBy pyEq acc k = some n) :
    (asetBy pyEq acc k (n + 1)).map (fun p => (p.1, p.2 + cntV p.1 t)) =
      acc.map (fun p => (p.1, p.2 + cntV p.1 (k :: t))) := by
  induction acc with
  | nil => cases hn
  | cons hd tl ih =>
    obtain ⟨k0, v0⟩ := hd
    simp only [List.map_cons, List.nodup_cons] at hnd
    by_cases h0 : pyEq k0 k = true
    · rw [alookupBy, if_pos (by simp [h0])] at hn
      have hv : v0 = n := by cases hn; rfl
      subst hv
      rw [asetBy, if_pos (by simp [h0])]
      have hkk0 : pyEq k k0 = true := by
        rw [pyEq_canon] at h0 ⊢
        simp only [decide_eq_true_eq] at h0 ⊢
        exact h0.symm
      simp only [List.map_cons]
      refine congrArg₂ List.cons ?_ ?_
      · rw [cntV_cons, if_pos hkk0, Nat.add_assoc]
      · apply List.map_congr_left
        intro p hp
        have hck : canon k = canon k0 := by
          rw [pyEq_canon] at hkk0
          exact of_decide_eq_true hkk0
        have hne : pyEq k p.1 = false := by
          rw [pyEq_canon]
          simp only [decide_eq_false_iff_not]
          intro hc
          apply hnd.1
          rw [show canon k0 = canon p.1 from by rw [← hck, hc]]
          exact List.mem_map_of_mem _ (List.mem_map_of_mem _ hp)
        rw [cntV_cons_of_ne _ hne]
    · have h0' : pyEq k0 k = false := by simpa using h0
      rw [alookupBy, if_neg (by simp [h0'])] at hn
      rw [asetBy, if_neg (by simp [h0'])]
      have hkk0 : pyEq k k0 = false := pyEq_symm_false h0'
      simp only [List.map_cons]
      refine congrArg₂ List.cons ?_ ?_
      · rw [cntV_cons_of_ne _ hkk0]
      · exact ih hnd.2 hn

/-- Characterisation of the `$group` accumulator fold: starting from an
accumulator with pyEq-distinct keys, folding `bumpKey` over `ks` adds each
key's count to the matching existing entry and appends one entry per
unseen pyEq-class in first-occurrence order. -/
theorem foldl_bumpKey_char (ks : List Value) :
    ∀ (acc : List (Value × Nat)),
      ((acc.map Prod.fst).map canon).Nodup →
      ks.foldl bumpKey acc =
        acc.map (fun p => (p.1, p.2 + cntV p.1 ks)) ++
        (dedupFirstFrom (acc.map Prod.fst) ks).map (fun k => (k, cntV k ks)) := by
  induction ks with
  | nil =>
    intro acc _
    simp [dedupFirstFrom, cntV]
  | cons k t ih =>
    intro acc hnd
    rw [List.foldl_cons]
    by_cases hmem : memV k (acc.map Prod.fst) = true
    · -- the head key already has an entry: increment it
      have hsome : (alookupBy pyEq acc k).isSome = true := by
        rw [alookupV_isSome_eq_memV, hmem]
      obtain ⟨n, hn⟩ := Option.isSome_iff_exists.mp hsome
      have hbump : bumpKey acc k = asetBy pyEq acc k (n + 1) := by
        rw [bumpKey, hn]
      rw [hbump]
      have hnd' : (((asetBy pyEq acc k (n + 1)).map Prod.fst).map canon).Nodup := by
        rw [asetBy_map_fst_of_isSome acc k (n + 1) hsome]
        exact hnd
      rw [ih _ hnd', asetBy_map_fst_of_isSome acc k (n + 1) hsome]
      rw [dedupFirstFrom, if_pos hmem]
      rw [asetBy_incr_map acc k n t hnd hn]
      congr 1
      apply List.map_congr_left
      intro k' hk'
      have hseen := memV_of_mem_dedupFirstFrom t (acc.map Prod.fst) k' hk'
      -- pyEq k k' must be false: k is seen, k' is not
      have hne : pyEq k k' = false := by
        rw [pyEq_canon]
        simp only [decide_eq_false_iff_not]
        intro hc
        obtain ⟨y, hy, hcy⟩ := (memV_iff_exists k (acc.map Prod.fst)).mp hmem
        have : memV k' (acc.map Prod.fst) = true :=
          (memV_iff_exists k' (acc.map Prod.fst)).mpr ⟨y, hy, by rw [hcy, hc]⟩
        rw [this] at hseen
        cases hseen
      rw [cntV_cons_of_ne _ hne]
    · -- the head key is new: append a fresh entry with count 1
      have hmem' : memV k (acc.map Prod.fst) = false := by simpa using hmem
      have hnone : alookupBy pyEq acc k = none := by
        have := alookupV_isSome_eq_memV acc k
        rw [hmem'] at this
        exact Option.not_isSome_iff_eq_none.mp (by rw [this]; exact Bool.false_ne_true)
      have hbump : bumpKey acc k = acc ++ [(k, 1)] := by
        rw [bumpKey, hnone]
      rw [hbump]
      have hknot : canon k ∉ (acc.map Prod.fst).map canon := by
        intro hc
        obtain ⟨y, hy, hcy⟩ := List.mem_map.mp hc
        have : memV k (acc.map Prod.fst) = true :=
          (memV_iff_exists k (acc.map Prod.fst)).mpr ⟨y, hy, hcy⟩
        rw [this] at hmem'
        cases hmem'
      have hnd' : ((((acc ++ [(k, 1)]).map Prod.fst)).map canon).Nodup := by
        simp only [List.map_append, List.map_cons, List.map_nil]
        rw [List.nodup_append]
        exact ⟨hnd, List.nodup_singleton _, by simpa using hknot⟩
      rw [ih _ hnd']
      rw [dedupFirstFrom, if_neg (by simp [hmem'])]
      simp only [List.map_append, List.map_cons, List.map_nil, List.append_assoc,
        List.singleton_append]
      congr 1
      · apply List.map_congr_left
        intro p hp
        have hne : pyEq k p.1 = false :=
          pyEq_false_of_memV_false hmem' (List.mem_map_of_mem _ hp)
        rw [cntV_cons_of_ne _ hne]
      · congr 1
        · rw [cntV_cons, if_pos (pyEq_refl k), Nat.add_comm]
        · apply List.map_congr_left
          intro k' hk'
          have hseen := memV_of_mem_dedupFirstFrom t (acc.map Prod.fst ++ [k]) k' hk'
          rw [memV_append] at hseen
          have hk2 : memV k' [k] = false := (Bool.or_eq_false_iff.mp hseen).2
          have hne : pyEq k k' = false := by
            have : (pyEq k k' || false) = false := by simpa [memV] using hk2
            simpa using this
          rw [cntV_cons_of_ne _ hne]

/-- The `$group` fold, run from the empty accumulator, computes one
`(key, count)` pair per pyEq-class in first-occurrence order. -/
theorem foldl_bumpKey_spec (ks : List Value) :
    ks.foldl bumpKey [] = (dedupFirst ks).map fun k => (k, cntV k ks) := by
  have h := foldl_bumpKey_char ks [] (by simp)
  simpa [dedupFirst] using h

/-- C8, amended: the `$group(byField)` stage replaces the working set with
exactly one record `{_id: key, count: N}` per distinct value of `byField`
among the input records (distinctness and `N` being counted under Python
`==`, in first-occurrence order), where a record missing `byField` is
grouped under the Python *string* `'null'` — not the literal `null`. -/
theorem C8_group_stage_spec (db : DB) (tbl : String) (rs : Table) (f : String)
    (hlook : alookupBy strEq db.data tbl = some rs) :
    aggregate db tbl [Stage.group f] =
      (dedupFirst (rs.map (groupKeyOf f))).map
        (fun k => [("_id", k), ("count", Value.int (cntV k (rs.map (groupKeyOf f))))]) := by
  have hfold : rs.foldl (fun res r => bumpKey res (groupKeyOf f r)) [] =
      (rs.map (groupKeyOf f)).foldl bumpKey [] :=
    (List.foldl_map (groupKeyOf f) bumpKey rs []).symm
  simp only [aggregate, hlook, List.foldl_cons, List.foldl_nil, runStage]
  rw [hfold, foldl_bumpKey_spec, List.map_map]
  rfl

theorem C8_group_stage_spec_witness :
    aggregate c8Base "t" [Stage.group "b"] =
      (dedupFirst ([[("a", Value.int 1)]].map (groupKeyOf "b"))).map
        (fun k => [("_id", k),
          ("count", Value.int (cntV k ([[("a", Value.int 1)]].map (groupKeyOf "b"))))]) :=
  C8_group_stage_spec c8Base "t" [[("a", Value.int 1)]] "b" (by decide)

/-- C8, counterexample: a record missing the group field is grouped under
the string `"null"`, not under the literal `null`. -/
theorem C8_missing_field_groups_as_string_null :
    aggregate c8Base "t" [Stage.group "b"] =
        [[("_id", Value.str "null"), ("count", Value.int 1)]] ∧
    aggregate c8Base "t" [Stage.group "b"] ≠
        [[("_id", Value.null), ("count", Value.int 1)]] := by
  decide

end ADB
